import Mathlib

/-!
Verification of the PyPinT SDC solver core against its specification.

The Python sources are shallowly embedded over exact rational arithmetic:

* `pypint/solvers/sdc.py` -- the `Sdc` solver: its `State` accessors, the
  explicit and implicit `_sdc_step` bodies, the residual computation, the
  reduction-of-solution bookkeeping of `run()`, the post-loop reporting and
  the time grid built by `init()`;
* `pypint/problems/i_problem.py` -- `IProblem.implicit_solve`;
* `pypint/solutions/data_storage/trajectory_solution_data.py` --
  `TrajectorySolutionData` with its consistency check and finalize lock;
* `pySDC/sdc.py` -- the property setters of the alternate `SDC` revision.

Machine floats of the source are modelled as rationals; numpy arrays as
lists (where Python indexing semantics matter) or as total maps from global
point indices (inside the sweep, where the code only uses in-range indices).
External collaborators that are consumed behind an interface (the quadrature
evaluation of the integrator and the nonlinear root finder) are universally
quantified parameters.
-/

namespace PyPinT

/-- Python exception classes raised by the embedded code paths. -/
inductive PyErr where
  | valueError
  | indexError
  | attributeError
  | zeroDivisionError
  deriving DecidableEq, Repr

/-! ## Sdc.State array accessors (sdc.py lines 107-132)

Each accessor guards with `assert_condition(index < size, ValueError, ...)`
and then indexes the underlying numpy array.  numpy indexing accepts
negative indices in `[-size, -1]` (wrapping around to `size + index`) and
raises an `IndexError` below that range.  There is no check for negative
indices in the accessor itself. -/

/-- Read path of `Sdc.State.solution_at` / `error_at` / `residual_at`:
bounds assert followed by numpy element read. -/
def state_array_read (arr : List ℚ) (index : ℤ) : Except PyErr ℚ :=
  if ¬ (index < (arr.length : ℤ)) then Except.error PyErr.valueError
  else if 0 ≤ index then Except.ok (arr.getD index.toNat 0)
  else if -(arr.length : ℤ) ≤ index then Except.ok (arr.getD (index + arr.length).toNat 0)
  else Except.error PyErr.indexError

/-- `Sdc.State.solution_at(index)` (read form, sdc.py lines 107-112). -/
def solution_at_read (sol : List ℚ) (index : ℤ) : Except PyErr ℚ :=
  state_array_read sol index

/-- `Sdc.State.error_at(index)` (read form, sdc.py lines 116-121). -/
def error_at_read (err : List ℚ) (index : ℤ) : Except PyErr ℚ :=
  state_array_read err index

/-- `Sdc.State.residual_at(index)` (read form, sdc.py lines 125-130). -/
def residual_at_read (res : List ℚ) (index : ℤ) : Except PyErr ℚ :=
  state_array_read res index

/-- Write path of the same accessors (`value is not None` branch): the same
bounds assert, then `self._solution[index] = value`. -/
def state_array_write (arr : List ℚ) (index : ℤ) (v : ℚ) : Except PyErr (List ℚ) :=
  if ¬ (index < (arr.length : ℤ)) then Except.error PyErr.valueError
  else if 0 ≤ index then Except.ok (arr.set index.toNat v)
  else if -(arr.length : ℤ) ≤ index then Except.ok (arr.set (index + arr.length).toNat v)
  else Except.error PyErr.indexError

/-! ## Reduction bookkeeping of Sdc.run (sdc.py lines 381-389)

For iterations beyond the first, `run()` computes
`reduction_of_solution = np.abs((current.solution[-1] - current.solution[-1])
/ previous.solution[-1] * 100.0)` and, when an exact solution is available,
`reduction_of_error = np.abs(current.error[-1] - current.error[-1])`. -/

/-- `reduction_of_solution` as computed by `Sdc.run` (sdc.py lines 384-386). -/
def reduction_of_solution (curLast prevLast : ℚ) : ℚ :=
  abs ((curLast - curLast) / prevLast * 100)

/-- `reduction_of_error` as computed by `Sdc.run` (sdc.py lines 388-389). -/
def reduction_of_error (curErrLast : ℚ) : ℚ :=
  abs (curErrLast - curErrLast)

/-- The relative change of the last node value between the two iterations,
as the specification describes the reduction. -/
def relative_change (curLast prevLast : ℚ) : ℚ :=
  abs ((curLast - prevLast) / prevLast * 100)

/-! ## Configuration handling

`Sdc.init` (sdc.py lines 190-263) explicitly rejects only a problem that is
not an `IInitialValueProblem` (line 190).  The `type` keyword is accepted
solely when it is one of the three known strings; any other value is
silently ignored and the default explicit type is kept (lines 196-198).
`num_time_steps` and `num_nodes` are stored without any validation (lines
207-218; `num_nodes` falls back to the default 3-node integrator), and the
time interval is never checked at all.  Non-positive counts nevertheless
make the setup code of lines 226-263 raise on the way:

* line 231 constructs a `State`, i.e. `np.zeros(num_points)` with
  `num_points = T*(N-1)+1`, which raises a `ValueError` (negative
  dimensions) when `num_points < 0`;
* line 243 computes `deltas["I"] / num_time_steps`, a `ZeroDivisionError`
  when `T = 0`;
* line 245 calls `np.linspace(a, b, T+1)`, a `ValueError` (negative sample
  count) when `T + 1 < 0`;
* line 249 indexes `steps[0]` and `steps[1]`, an `IndexError` when the
  linspace holds fewer than two samples, i.e. `T + 1 < 2`;
* line 263 writes `time_points["nodes"][-1]`, an `IndexError` on the empty
  array when `num_points = 0`.

The external integrator and node provider touched at line 248 are consumed
behind their interfaces and modelled as total, per the spec. -/

/-- Type-string handling of `Sdc.init` (sdc.py lines 196-198): an
unrecognized value leaves the default type `expl` untouched. -/
def sdc_init_type (ty : Option String) : String :=
  match ty with
  | some t => if t = "impl" ∨ t = "expl" ∨ t = "semi" then t else "expl"
  | none => "expl"

/-- `Sdc.init` (sdc.py lines 190-263): the problem-class check, the silent
type fallback, the unvalidated counts, and the downstream numpy and
zero-division failures of the grid setup in their source order.  Returns
the selected type string and the global point count; the interval arguments
are taken to witness that no code path examines them. -/
def sdc_init (problemIsIvp : Bool) (ty : Option String) (tstart tend : ℚ)
    (numTimeSteps : Option ℤ) (numNodes : Option ℤ) : Except PyErr (String × ℤ) :=
  if ¬ problemIsIvp then Except.error PyErr.valueError
  else
    let T := numTimeSteps.getD 1
    let N := numNodes.getD 3
    let numPoints := T * (N - 1) + 1
    if numPoints < 0 then Except.error PyErr.valueError
    else if T = 0 then Except.error PyErr.zeroDivisionError
    else if T + 1 < 0 then Except.error PyErr.valueError
    else if T + 1 < 2 then Except.error PyErr.indexError
    else if numPoints = 0 then Except.error PyErr.indexError
    else Except.ok (sdc_init_type ty, numPoints)

/-- `SDC.time_range` setter of the alternate revision (pySDC/sdc.py lines
133-139): rejects an interval whose end is not after its start. -/
def time_range_set (tstart tend : ℚ) : Except PyErr (ℚ × ℚ) :=
  if tend ≤ tstart then Except.error PyErr.valueError else Except.ok (tstart, tend)

/-- `SDC.time_steps` setter (pySDC/sdc.py lines 161-165): rejects
non-positive counts. -/
def time_steps_set (v : ℤ) : Except PyErr ℤ :=
  if v ≤ 0 then Except.error PyErr.valueError else Except.ok v

/-- `SDC.num_substeps` setter (pySDC/sdc.py lines 187-191): rejects
non-positive counts. -/
def num_substeps_set (v : ℤ) : Except PyErr ℤ :=
  if v ≤ 0 then Except.error PyErr.valueError else Except.ok v

/-- `SDC.iterations` setter (pySDC/sdc.py lines 213-217): rejects
non-positive counts. -/
def iterations_set (v : ℤ) : Except PyErr ℤ :=
  if v ≤ 0 then Except.error PyErr.valueError else Except.ok v

/-! ## TrajectorySolutionData (trajectory_solution_data.py)

A trajectory is an append-only sequence of step records.  Numeric types are
modelled as opaque tags.  `add_solution_data` is modelled on the
`StepSolutionData` argument path; the keyword-construction path builds the
same record before the identical append/check/rollback sequence. -/

/-- One `StepSolutionData` record: time point, numeric-type tag, spacial
dimension and solution values. -/
structure StepSolutionData where
  time_point : ℚ
  numeric_type : ℕ
  dim : ℕ
  value : List ℚ
  deriving DecidableEq, Repr

/-- The `TrajectorySolutionData` storage: the data array, the global numeric
type and dimension (set once the first step is stored) and the finalize
lock. -/
structure TrajectorySolutionData where
  data : List StepSolutionData
  numeric_type : Option ℕ
  dim : Option ℕ
  finalized : Bool
  deriving DecidableEq, Repr

/-- One round of the `_check_consistency` loop body (lines 200-215): the
time point of the step must exceed the time point of the FIRST stored step
(the reference value is never advanced in the source loop), and numeric
type and dimension must match the globals. -/
def check_step (t0 : ℚ) (nt dim : Option ℕ) (st : StepSolutionData) : Except PyErr Unit :=
  if ¬ (t0 < st.time_point) then Except.error PyErr.valueError
  else if ¬ (some st.numeric_type = nt) then Except.error PyErr.valueError
  else if ¬ (some st.dim = dim) then Except.error PyErr.valueError
  else Except.ok ()

/-- The `_check_consistency` loop over steps 1 .. size-1 (lines 199-215). -/
def check_steps (t0 : ℚ) (nt dim : Option ℕ) : List StepSolutionData → Except PyErr Unit
  | [] => Except.ok ()
  | st :: rest =>
    match check_step t0 nt dim st with
    | Except.error e => Except.error e
    | Except.ok _ => check_steps t0 nt dim rest

/-- `TrajectorySolutionData._check_consistency` (lines 187-215): nothing to
check while empty, otherwise run the loop against the first stored step. -/
def check_consistency (s : TrajectorySolutionData) : Except PyErr Unit :=
  match s.data with
  | [] => Except.ok ()
  | first :: rest => check_steps first.time_point s.numeric_type s.dim rest

/-- `TrajectorySolutionData.add_solution_data` (lines 76-100): refuse when
finalized, back up the data array, append the new step, re-run the
consistency check, and on failure restore the backup and re-raise; on the
first successful add record the global dimension and numeric type.  The
result pairs the raised-or-ok outcome with the storage as left behind. -/
def add_solution_data (s : TrajectorySolutionData) (st : StepSolutionData) :
    Except PyErr Unit × TrajectorySolutionData :=
  if s.finalized then (Except.error PyErr.attributeError, s)
  else
    let appended : TrajectorySolutionData := { s with data := s.data ++ [st] }
    match check_consistency appended with
    | Except.error e => (Except.error e, { appended with data := s.data })
    | Except.ok _ =>
      if appended.data.length = 1 then
        (Except.ok (), { appended with dim := some st.dim, numeric_type := some st.numeric_type })
      else
        (Except.ok (), appended)

/-- `TrajectorySolutionData.finalize` (lines 102-112): sets the lock, and
fails with an `AttributeError` when the lock is already set. -/
def finalize (s : TrajectorySolutionData) : Except PyErr TrajectorySolutionData :=
  if s.finalized then Except.error PyErr.attributeError
  else Except.ok { s with finalized := true }

/-! ## The iterate-until-converged loop of Sdc.run (sdc.py lines 357-462)

`run()` keeps a threshold checker constructed as
`ThresholdCheck(min_threshold=1e-7, max_threshold=10,
conditions=("residual", "iterations"))` and loops
`while threshold.has_reached() is None`, incrementing the iteration counter,
performing one sweep and then calling
`threshold.check(residual=..., iterations=_iter)`.  After the loop it
branches on `_iter <= threshold.max_iterations` to report either convergence
or (in the unreachable alternative) failure, and returns the solution object
in both branches -- there is no raise on that path. -/

/-- Modelled from the spec: the ThresholdCheck component
(`pypint/utilities/threshold_check.py` is not under src/).  Per the spec it
recognizes a minimum acceptable residual and a maximum iteration count, and
any satisfied condition triggers the stop. -/
structure ThresholdCheck where
  minThreshold : ℚ
  maxThreshold : ℕ

/-- Modelled from the spec: `ThresholdCheck.check` marks the threshold as
reached when the residual is within the minimum threshold or the iteration
count has hit the maximum threshold. -/
def threshold_reached (tc : ThresholdCheck) (residual : ℚ) (iterations : ℕ) : Bool :=
  decide (residual ≤ tc.minThreshold) || decide (tc.maxThreshold ≤ iterations)

/-- The `while threshold.has_reached() is None` loop of `Sdc.run`, driven by
the residual each sweep leaves behind (`res k` is the final residual of
iteration `k`).  The fuel argument bounds the recursion; the iterations
condition stops the loop before the fuel runs out. -/
def iterate_loop (tc : ThresholdCheck) (res : ℕ → ℚ) : ℕ → ℕ → ℕ
  | 0, k => k
  | fuel + 1, k =>
    if threshold_reached tc (res k) k then k else iterate_loop tc res fuel (k + 1)

/-- The iteration counter `_iter` as left behind by the loop of `Sdc.run`:
the first iteration from 1 on where the threshold check triggers. -/
def used_iterations (tc : ThresholdCheck) (res : ℕ → ℚ) : ℕ :=
  iterate_loop tc res tc.maxThreshold 1

/-- The two terminal outcomes reported by `Sdc.run`. -/
inductive Report where
  | converged
  | didNotConverge
  deriving DecidableEq, Repr

/-- The post-loop reporting branch of `Sdc.run` (sdc.py lines 442-456):
the converged message when `_iter <= threshold.max_iterations`, the
did-not-converge warning otherwise. -/
def run_report (maxIterations iter : ℕ) : Report :=
  if iter ≤ maxIterations then Report.converged else Report.didNotConverge

/-- The value `Sdc.run` hands back: the solution object together with the
report; both report branches fall through to `return _solution`. -/
def run_outcome (tc : ThresholdCheck) (res : ℕ → ℚ) (sol : List ℚ) : List ℚ × Report :=
  (sol, run_report tc.maxThreshold (used_iterations tc res))

/-! ## The SDC sweep (sdc.py `_sdc_step`)

The per-node correction.  The solution arrays of the current and the
previous iteration are total maps from the global point index; the problem
right-hand side `F`, the quadrature evaluation `Q` (the external
`SdcIntegrator.evaluate`, consumed behind its interface) and the external
root finder are parameters. -/

/-- Elementwise `numpy.where(mask, a, b)` on equal-length vectors. -/
def npWhere : List Bool → List ℚ → List ℚ → List ℚ
  | m :: ms, x :: xs, y :: ys => (if m then x else y) :: npWhere ms xs ys
  | _, _, _ => []

/-- Result object of the external root finder (`scipy.optimize.root`): the
convergence flag and the best estimate `x`. -/
structure RootSol where
  success : Bool
  x : List ℚ

/-- `IProblem.implicit_solve` (i_problem.py lines 148-161): run the external
root finder; when it did not converge, emit a `UserWarning` (the Boolean
component) and log -- no exception; either way hand back `sol.x`, the root
finder best estimate. -/
def implicit_solve (find_root : (List ℚ → List ℚ) → List ℚ → RootSol)
    (next_x : List ℚ) (func : List ℚ → List ℚ) : List ℚ × Bool :=
  let sol := find_root func next_x
  (sol.x, !sol.success)

/-- The implicit branch of `Sdc._sdc_step` without a direct-implicit closed
form (sdc.py lines 514-536 and 547-557): gather the masked integration
values, evaluate and integrate, build the fixed-point function and solve it
through `implicit_solve`, then write the result into the current solution.
The Boolean output is the warning flag of `implicit_solve`. -/
def sdcStepImplicit (find_root : (List ℚ → List ℚ) → List ℚ → RootSol)
    (N t n : ℕ) (F : ℚ → ℚ → ℚ) (Q : List ℚ → ℕ → ℚ)
    (nodes tp dn : ℕ → ℚ) (dI : ℚ) (cur prev : ℕ → ℚ) : (ℕ → ℚ) × Bool :=
  let i := t * (N - 1) + n
  let i0 := i - n
  let i1 := (t + 1) * (N - 1)
  let dt := dn n
  let t1 := tp i
  let mask := List.replicate n true ++ List.replicate (N - n) false
  let ivals := npWhere mask
    ((List.range (i1 + 1 - i0)).map (fun j => cur (i0 + j)))
    ((List.range (i1 + 1 - i0)).map (fun j => prev (i0 + j)))
  let fvals := ivals.map (fun v => F (nodes (n - 1)) v)
  let integral := Q fvals n
  let explTerm := cur (i - 1) - dt * F t1 (prev i) + dI * integral
  let func := fun xs : List ℚ => xs.map (fun x => explTerm + dt * F t1 x - x)
  let sol := implicit_solve find_root [cur i] func
  (fun j => if j = i then (sol.1).getD 0 0 else cur j, sol.2)

/-- The explicit branch of `Sdc._sdc_step` (sdc.py lines 514-536, 579-587
and 593-607), followed line by line: global index bookkeeping, the copy
mask, the `numpy.where` blend of current- and previous-iteration slices,
the problem evaluation and quadrature, the explicit correction written into
the current solution, and the residual recomputation (whose blend re-reads
the updated solution and overwrites position `n` with the freshly written
value before cumulatively re-integrating nodes 1 through n).  Returns the
updated current solution and the residual stored at the node. -/
def sdcStepExplicit (N t n : ℕ) (F : ℚ → ℚ → ℚ) (Q : List ℚ → ℕ → ℚ)
    (nodes tp dn : ℕ → ℚ) (dI : ℚ) (cur prev : ℕ → ℚ) : (ℕ → ℚ) × ℚ :=
  let i := t * (N - 1) + n
  let i0 := i - n
  let i1 := (t + 1) * (N - 1)
  let dt := dn n
  let t0 := tp (i - 1)
  let mask := List.replicate n true ++ List.replicate (N - n) false
  let ivals := npWhere mask
    ((List.range (i1 + 1 - i0)).map (fun j => cur (i0 + j)))
    ((List.range (i1 + 1 - i0)).map (fun j => prev (i0 + j)))
  let fvals := ivals.map (fun v => F (nodes (n - 1)) v)
  let integral := Q fvals n
  let newv := cur (i - 1) + dt * (F t0 (cur (i - 1)) - F t0 (prev (i - 1))) + dI * integral
  let cur2 := fun j => if j = i then newv else cur j
  let rvals0 := npWhere mask
    ((List.range (i1 + 1 - i0)).map (fun j => cur2 (i0 + j)))
    ((List.range (i1 + 1 - i0)).map (fun j => prev (i0 + j)))
  let rvals := rvals0.set n (cur2 i)
  let rfvals := rvals.map (fun v => F (nodes (n - 1)) v)
  let rintegral := (Finset.Icc 1 n).sum (fun m => Q rfvals m)
  let residual := abs (cur2 i0 + dI * rintegral - cur2 i)
  (cur2, residual)

/-- The masked blend as the specification words it: within the enclosing
time step, local node indices below `n` take the current iteration values
and indices from `n` on take the previous iteration values. -/
def blendedValuesSpec (N t n : ℕ) (cur prev : ℕ → ℚ) : List ℚ :=
  (List.range N).map
    (fun j => if j < n then cur (t * (N - 1) + j) else prev (t * (N - 1) + j))

/-- The corrected value as the specification words it: the previous node
value of the current iteration, plus the node spacing times the difference
of the right-hand side at the previous node between the two iterations,
plus the full step width times the quadrature of the right-hand side over
the masked blend up to node `n`. -/
def correctedValueSpec (N t n : ℕ) (F : ℚ → ℚ → ℚ) (Q : List ℚ → ℕ → ℚ)
    (nodes tp dn : ℕ → ℚ) (dI : ℚ) (cur prev : ℕ → ℚ) : ℚ :=
  cur (t * (N - 1) + n - 1)
    + dn n * (F (tp (t * (N - 1) + n - 1)) (cur (t * (N - 1) + n - 1))
        - F (tp (t * (N - 1) + n - 1)) (prev (t * (N - 1) + n - 1)))
    + dI * Q ((blendedValuesSpec N t n cur prev).map (fun v => F (nodes (n - 1)) v)) n

/-- The residual as the specification words it: with the freshly corrected
solution substituted at every local node index up to and including `n` and
the previous iteration beyond, the collocation defect
`|u_first + dI * (cumulative quadrature from node 1 through n) - u_n|`. -/
def residualSpec (N t n : ℕ) (F : ℚ → ℚ → ℚ) (Q : List ℚ → ℕ → ℚ)
    (nodes tp dn : ℕ → ℚ) (dI : ℚ) (cur prev : ℕ → ℚ) : ℚ :=
  let i := t * (N - 1) + n
  let i0 := t * (N - 1)
  let newSol := fun j =>
    if j = i then correctedValueSpec N t n F Q nodes tp dn dI cur prev else cur j
  let vals := (List.range N).map (fun j => if j ≤ n then newSol (i0 + j) else prev (i0 + j))
  let fvals := vals.map (fun v => F (nodes (n - 1)) v)
  abs (newSol i0 + dI * (Finset.Icc 1 n).sum (fun m => Q fvals m) - newSol i)

/-! ## The time grid built by Sdc.init (sdc.py lines 226-263)

`init` sets `__num_points = T*(N-1)+1`, broadcasts the initial value over
that many points, splits the problem interval into `T` equal steps with
`numpy.linspace`, and fills the node time points step by step by
transforming a copy of the canonical node set onto each step interval; the
last grid entry is overwritten with the last node of the final step.  The
canonical node provider (`GaussLobattoNodes` with `INodes.transform`) is not
under src/ and is modelled from the spec: an ordered node set on the
canonical interval, mapped affinely onto each step, whose first and last
nodes are the interval endpoints (the nodes partition the step into `N-1`
sub-intervals). -/

/-- `Sdc.init` line 227: the global point count `T*(N-1)+1`. -/
def num_points (T N : ℕ) : ℕ := T * (N - 1) + 1

/-- `Sdc.init` line 232: the initial value broadcast to every grid point. -/
def initialSolution (T N : ℕ) (u0 : ℚ) : List ℚ := List.replicate (num_points T N) u0

/-- `numpy.linspace(time_start, time_end, T+1)` entry `t` (line 245). -/
def stepPoint (T : ℕ) (a b : ℚ) (t : ℕ) : ℚ := a + t * ((b - a) / T)

/-- Modelled from the spec: `INodes.transform` maps a canonical node
`x` of `[0, 1]` affinely onto the step interval `[c, d]`. -/
def transformNode (c d x : ℚ) : ℚ := c + x * (d - c)

/-- The node time point array filled by the loop of `Sdc.init` lines
255-263: entry `i = t*(N-1)+n` (for `t < T`, `n < N-1`) receives node `n`
of the node set transformed onto step `t`, and the final entry receives the
last node of the last step.  Since the loop writes each index exactly once,
the array is given in closed form through division and remainder by
`N-1`. -/
def gridTimePoint (T N : ℕ) (a b : ℚ) (s : ℕ → ℚ) (i : ℕ) : ℚ :=
  if i = T * (N - 1) then
    transformNode (stepPoint T a b (T - 1)) (stepPoint T a b T) (s (N - 1))
  else
    transformNode (stepPoint T a b (i / (N - 1))) (stepPoint T a b (i / (N - 1) + 1))
      (s (i % (N - 1)))

end PyPinT

/-! Theorems -/

namespace PyPinT

/-- C3: the specification states that `reduction_of_solution` is the relative
change of the last node value between iteration k and iteration k-1 and is
non-zero whenever that value changed.  The code instead subtracts the current
value from itself, so the computed reduction is identically zero; at the
concrete inputs current = 2, previous = 1 the specified relative change is
100 while the code yields 0.  The error reduction suffers the same slip. -/
theorem reduction_of_solution_always_zero :
    (∀ curLast prevLast : ℚ, reduction_of_solution curLast prevLast = 0)
    ∧ (∀ curErrLast : ℚ, reduction_of_error curErrLast = 0)
    ∧ reduction_of_solution 2 1 = 0 ∧ relative_change 2 1 = 100 := by
  refine ⟨fun c p => ?_, fun c => ?_, ?_, ?_⟩
  · simp [reduction_of_solution]
  · simp [reduction_of_error]
  · simp [reduction_of_solution]
  · norm_num [relative_change]

/-- C6 counterexample: the claim states every index outside `[0, size)`
makes the accessors fail, but `solution_at(-1)` on a three-point state
returns the LAST stored value (numpy wrap-around) without any error. -/
theorem solution_at_negative_index_reads :
    solution_at_read [10, 20, 30] (-1) = Except.ok 30 ∧ (-1 : ℤ) < 0 := by
  constructor
  · rfl
  · decide

/-- C6 amended: for `index >= size` the accessors raise a `ValueError` (not
an IndexError-class error); an in-range index returns the stored value; a
negative index in `[-size, -1]` is NOT rejected and returns the element at
`size + index`; only `index < -size` raises an `IndexError` (from numpy
itself, not from the bounds assert). -/
theorem state_accessors_bounds (arr : List ℚ) (index : ℤ) :
    ((arr.length : ℤ) ≤ index →
      solution_at_read arr index = Except.error PyErr.valueError
      ∧ error_at_read arr index = Except.error PyErr.valueError
      ∧ residual_at_read arr index = Except.error PyErr.valueError)
    ∧ (0 ≤ index → index < (arr.length : ℤ) →
      solution_at_read arr index = Except.ok (arr.getD index.toNat 0)
      ∧ error_at_read arr index = Except.ok (arr.getD index.toNat 0)
      ∧ residual_at_read arr index = Except.ok (arr.getD index.toNat 0))
    ∧ (-(arr.length : ℤ) ≤ index → index < 0 →
      solution_at_read arr index = Except.ok (arr.getD (index + arr.length).toNat 0)
      ∧ error_at_read arr index = Except.ok (arr.getD (index + arr.length).toNat 0)
      ∧ residual_at_read arr index = Except.ok (arr.getD (index + arr.length).toNat 0))
    ∧ (index < -(arr.length : ℤ) →
      solution_at_read arr index = Except.error PyErr.indexError
      ∧ error_at_read arr index = Except.error PyErr.indexError
      ∧ residual_at_read arr index = Except.error PyErr.indexError) := by
  refine ⟨fun h => ?_, fun h0 hlt => ?_, fun hge hneg => ?_, fun h => ?_⟩
  · have h1 : ¬ (index < (arr.length : ℤ)) := by omega
    simp [solution_at_read, error_at_read, residual_at_read, state_array_read, h1]
  · have h2 : ¬ ¬ (index < (arr.length : ℤ)) := by omega
    simp [solution_at_read, error_at_read, residual_at_read, state_array_read, h2, hlt, h0]
  · have h2 : index < (arr.length : ℤ) := by omega
    have h3 : ¬ 0 ≤ index := by omega
    simp [solution_at_read, error_at_read, residual_at_read, state_array_read, h2, h3, hge]
  · have h2 : index < (arr.length : ℤ) := by omega
    have h3 : ¬ 0 ≤ index := by omega
    have h4 : ¬ -(arr.length : ℤ) ≤ index := by omega
    simp [solution_at_read, error_at_read, residual_at_read, state_array_read, h2, h3, h4]

/-- C6 witness: the amended accessor behavior evaluated on concrete
states through the amended theorem. -/
theorem state_accessors_bounds_witness :
    solution_at_read [10, 20, 30] 5 = Except.error PyErr.valueError
    ∧ solution_at_read [10, 20, 30] 1 = Except.ok 20
    ∧ solution_at_read [10, 20, 30] (-2) = Except.ok 20
    ∧ solution_at_read [10, 20, 30] (-4) = Except.error PyErr.indexError := by
  refine ⟨((state_accessors_bounds [10, 20, 30] 5).1 (by norm_num)).1, ?_, ?_,
    ((state_accessors_bounds [10, 20, 30] (-4)).2.2.2 (by norm_num)).1⟩
  · have h := ((state_accessors_bounds [10, 20, 30] 1).2.1 (by norm_num) (by norm_num)).1
    simpa using h
  · have h := ((state_accessors_bounds [10, 20, 30] (-2)).2.2.1 (by norm_num) (by norm_num)).1
    simpa using h

/-- C7 counterexample: the claim states a solution value is written at most
once and a later write to a completed node fails with a state error; the
solver state enforces no such lock -- a second write to index 0 succeeds and
replaces the previously written value. -/
theorem write_twice_no_state_error :
    state_array_write [1, 2, 3] 0 5 = Except.ok [5, 2, 3]
    ∧ state_array_write [5, 2, 3] 0 7 = Except.ok [7, 2, 3] := by
  constructor <;> rfl

/-- C7 amended: the solver state has no finalize mechanism -- writes through
the accessors succeed at any in-range index any number of times, mutating
earlier values without a state error; only `TrajectorySolutionData` carries a
finalize lock, and once set, `add_solution_data` and a second `finalize`
fail with an `AttributeError`. -/
theorem finalize_lock_and_unchecked_state_writes
    (traj : TrajectorySolutionData) (st : StepSolutionData)
    (arr : List ℚ) (i : ℕ) (v w : ℚ)
    (hfin : traj.finalized = true) (hi : i < arr.length) :
    add_solution_data traj st = (Except.error PyErr.attributeError, traj)
    ∧ finalize traj = Except.error PyErr.attributeError
    ∧ state_array_write arr i v = Except.ok (arr.set i v)
    ∧ state_array_write (arr.set i v) i w = Except.ok ((arr.set i v).set i w) := by
  have h1 : ((i : ℤ)) < ((arr.length : ℤ)) := by exact_mod_cast hi
  have h2 : ((i : ℤ)) < (((arr.set i v).length : ℤ)) := by
    simpa [List.length_set] using h1
  refine ⟨?_, ?_, ?_, ?_⟩
  · simp [add_solution_data, hfin]
  · simp [finalize, hfin]
  · simp [state_array_write, h1]
  · simp only [state_array_write, h2, not_true_eq_false, if_false, Int.toNat_natCast,
      List.length_set]
    simp [hi]

/-- C7 witness: the amended claim evaluated on a concrete finalized
trajectory and a concrete state array. -/
theorem finalize_lock_witness :
    add_solution_data ⟨[], none, none, true⟩ ⟨0, 0, 1, []⟩
      = (Except.error PyErr.attributeError, ⟨[], none, none, true⟩)
    ∧ finalize ⟨[], none, none, true⟩ = Except.error PyErr.attributeError
    ∧ state_array_write [1, 2] 0 5 = Except.ok [5, 2]
    ∧ state_array_write [5, 2] 0 7 = Except.ok [7, 2] := by
  have h := finalize_lock_and_unchecked_state_writes ⟨[], none, none, true⟩ ⟨0, 0, 1, []⟩
    [1, 2] 0 5 7 rfl (by norm_num)
  simpa using h

/-- C8 counterexample: the claim states an unsupported `type` value or a
time interval with end below start makes `init` fail; on both inputs
`Sdc.init` runs to completion, silently keeping the default explicit type
and never examining the interval. -/
theorem unsupported_type_init_succeeds :
    sdc_init true (some "midpoint") 0 1 (some 1) (some 3) = Except.ok ("expl", 3)
    ∧ sdc_init true (some "expl") 1 0 (some 1) (some 3) = Except.ok ("expl", 3) := by
  constructor <;> rfl

/-- C8 amended: the alternate-revision `SDC` property setters do fail fast
(bad interval and non-positive step, substep and iteration counts each
raise a `ValueError`, valid values are accepted), but `Sdc.init` of the
main revision validates nothing beyond the problem class: an unsupported
`type` string silently falls back to the default explicit type with init
succeeding, and the time interval is never examined.  Non-positive counts
do abort init, yet not through validation: a negative global point count
reaches `np.zeros` (ValueError), zero time steps divide the step width by
zero (ZeroDivisionError), and the remaining degenerate shapes die on
linspace sample counts or out-of-range indexing (IndexError). -/
theorem config_validation (a b : ℚ) (v : ℤ) (t : String) (T N : ℤ) :
    (b ≤ a → time_range_set a b = Except.error PyErr.valueError)
    ∧ (a < b → time_range_set a b = Except.ok (a, b))
    ∧ (v ≤ 0 → time_steps_set v = Except.error PyErr.valueError
        ∧ num_substeps_set v = Except.error PyErr.valueError
        ∧ iterations_set v = Except.error PyErr.valueError)
    ∧ (0 < v → time_steps_set v = Except.ok v
        ∧ num_substeps_set v = Except.ok v
        ∧ iterations_set v = Except.ok v)
    ∧ (¬ (t = "impl" ∨ t = "expl" ∨ t = "semi") → 1 ≤ T → 2 ≤ N →
        sdc_init true (some t) a b (some T) (some N)
          = Except.ok ("expl", T * (N - 1) + 1))
    ∧ (∀ c d : ℚ, sdc_init true (some t) a b (some T) (some N)
        = sdc_init true (some t) c d (some T) (some N))
    ∧ (T ≤ 0 → ∃ e, sdc_init true (some t) a b (some T) (some N) = Except.error e)
    ∧ (N ≤ 0 → 1 ≤ T →
        ∃ e, sdc_init true (some t) a b (some T) (some N) = Except.error e) := by
  refine ⟨fun h => ?_, fun h => ?_, fun h => ?_, fun h => ?_,
    fun ht hT hN => ?_, fun c d => rfl, fun hT => ?_, fun hN hT => ?_⟩
  · simp [time_range_set, h]
  · simp [time_range_set, not_le.mpr h]
  · simp [time_steps_set, num_substeps_set, iterations_set, h]
  · simp [time_steps_set, num_substeps_set, iterations_set, not_le.mpr h]
  · have hTN : 0 ≤ T * (N - 1) := mul_nonneg (by omega) (by omega)
    have c1 : ¬ (T * (N - 1) + 1 < 0) := by linarith
    have c2 : ¬ (T = 0) := by omega
    have c3 : ¬ (T + 1 < 0) := by omega
    have c4 : ¬ (T + 1 < 2) := by omega
    have c5 : ¬ (T * (N - 1) + 1 = 0) := ne_of_gt (by linarith)
    simp [sdc_init, sdc_init_type, ht, c1, c2, c3, c4, c5]
  · by_cases h1 : T * (N - 1) + 1 < 0
    · exact ⟨PyErr.valueError, by simp [sdc_init, h1]⟩
    · by_cases h2 : T = 0
      · exact ⟨PyErr.zeroDivisionError, by simp [sdc_init, h1, h2]⟩
      · by_cases h3 : T + 1 < 0
        · exact ⟨PyErr.valueError, by simp [sdc_init, h1, h2, h3]⟩
        · have h4 : T + 1 < 2 := by omega
          exact ⟨PyErr.indexError, by simp [sdc_init, h1, h2, h3, h4]⟩
  · have hle : T * (N - 1) ≤ T * (-1) :=
      mul_le_mul_of_nonneg_left (by omega : N - 1 ≤ -1) (by omega : (0 : ℤ) ≤ T)
    have hnp : T * (N - 1) + 1 ≤ 0 := by linarith
    by_cases h1 : T * (N - 1) + 1 < 0
    · exact ⟨PyErr.valueError, by simp [sdc_init, h1]⟩
    · have h2 : ¬ (T = 0) := by omega
      have h3 : ¬ (T + 1 < 0) := by omega
      have h4 : ¬ (T + 1 < 2) := by omega
      have h5 : T * (N - 1) + 1 = 0 := by omega
      exact ⟨PyErr.indexError, by simp [sdc_init, h1, h2, h3, h4, h5]⟩

/-- C8 witness: the amended configuration handling evaluated at concrete
values through the amended theorem: rejected and accepted setter inputs,
the silently accepted unsupported type, and failing init runs with a
negative time-step count and with zero nodes. -/
theorem config_validation_witness :
    time_range_set 1 0 = Except.error PyErr.valueError
    ∧ time_range_set 0 1 = Except.ok (0, 1)
    ∧ time_steps_set (-3) = Except.error PyErr.valueError
    ∧ iterations_set 4 = Except.ok 4
    ∧ sdc_init true (some "midpoint") 0 1 (some 1) (some 3) = Except.ok ("expl", 3)
    ∧ (∃ e, sdc_init true (some "expl") 0 1 (some (-5)) (some 3) = Except.error e)
    ∧ (∃ e, sdc_init true (some "expl") 0 1 (some 1) (some 0) = Except.error e) := by
  refine ⟨(config_validation 1 0 (-3) "midpoint" 1 3).1 (by norm_num),
    (config_validation 0 1 (-3) "midpoint" 1 3).2.1 (by norm_num),
    ((config_validation 0 1 (-3) "midpoint" 1 3).2.2.1 (by norm_num)).1,
    ((config_validation 0 1 4 "midpoint" 1 3).2.2.2.1 (by norm_num)).2.2, ?_,
    (config_validation 0 1 4 "expl" (-5) 3).2.2.2.2.2.2.1 (by norm_num),
    (config_validation 0 1 4 "expl" 1 0).2.2.2.2.2.2.2 (by norm_num) (by norm_num)⟩
  have h := (config_validation 0 1 4 "midpoint" 1 3).2.2.2.2.1
    (by simp) (by norm_num) (by norm_num)
  simpa using h

/-- C10: when the consistency check of the just-appended step fails,
`add_solution_data` restores the backed-up data array and re-raises the
error, so a failed add leaves the trajectory exactly unchanged. -/
theorem add_solution_data_rollback (s : TrajectorySolutionData)
    (st : StepSolutionData) (e : PyErr)
    (hfin : s.finalized = false)
    (hchk : check_consistency { s with data := s.data ++ [st] } = Except.error e) :
    add_solution_data s st = (Except.error e, s) := by
  have hchk2 : check_consistency
      { data := s.data ++ [st], numeric_type := s.numeric_type, dim := s.dim,
        finalized := false } = Except.error e := by
    rw [← hfin]
    exact hchk
  simp only [add_solution_data, hfin, Bool.false_eq_true, if_false, hchk2]
  rw [← hfin]

/-- C10 witness: adding a step whose time point does not exceed that of the
first stored step fails the consistency check and leaves the concrete
trajectory unchanged. -/
theorem add_solution_data_rollback_witness :
    (⟨[⟨0, 0, 1, [1]⟩], some 0, some 1, false⟩ : TrajectorySolutionData).finalized = false
    ∧ check_consistency ⟨[⟨0, 0, 1, [1]⟩, ⟨0, 0, 1, [2]⟩], some 0, some 1, false⟩
        = Except.error PyErr.valueError
    ∧ add_solution_data ⟨[⟨0, 0, 1, [1]⟩], some 0, some 1, false⟩ ⟨0, 0, 1, [2]⟩
        = (Except.error PyErr.valueError, ⟨[⟨0, 0, 1, [1]⟩], some 0, some 1, false⟩) := by
  refine ⟨rfl, rfl, add_solution_data_rollback _ _ _ rfl ?_⟩
  rfl

/-- The iterate loop runs out to exactly the iteration cap when no sweep
brings the residual within the minimum threshold. -/
theorem iterate_loop_cap (tc : ThresholdCheck) (res : ℕ → ℚ)
    (hres : ∀ k, ¬ res k ≤ tc.minThreshold) :
    ∀ fuel k, 1 ≤ k → k ≤ tc.maxThreshold → tc.maxThreshold ≤ k + fuel →
      iterate_loop tc res fuel k = tc.maxThreshold := by
  intro fuel
  induction fuel with
  | zero =>
    intro k h1 h2 h3
    simp only [iterate_loop]
    omega
  | succ m ih =>
    intro k h1 h2 h3
    by_cases hk : tc.maxThreshold ≤ k
    · have hke : k = tc.maxThreshold := le_antisymm h2 hk
      simp [iterate_loop, threshold_reached, hk, hke]
    · have hfalse : threshold_reached tc (res k) k = false := by
        simp [threshold_reached, hres k, hk]
      simp only [iterate_loop, hfalse, Bool.false_eq_true, if_false]
      exact ih (k + 1) (by omega) (by omega) (by omega)

/-- C5 counterexample: the claim states that reaching the iteration cap
without meeting the residual tolerance yields a did-not-converge report.
With the cap at 2 and the residual stuck at 1, the loop exits at iteration
2, so the branch condition of the report is satisfied and the converged
message is emitted instead. -/
theorem cap_exhaustion_not_reported_distinctly :
    used_iterations ⟨1 / 10000000, 2⟩ (fun _ => 1) = 2
    ∧ run_report 2 (used_iterations ⟨1 / 10000000, 2⟩ (fun _ => 1)) = Report.converged
    ∧ run_report 2 (used_iterations ⟨1 / 10000000, 2⟩ (fun _ => 1))
        ≠ Report.didNotConverge := by
  have h : used_iterations ⟨1 / 10000000, 2⟩ (fun _ => 1) = 2 := by
    norm_num [used_iterations, iterate_loop, threshold_reached]
  refine ⟨h, ?_, ?_⟩ <;> rw [h] <;> simp [run_report]

/-- C5 amended: when the residual tolerance is never met, the loop
terminates at exactly the iteration cap without an exception and `run`
still returns the solution object; but the terminal count then satisfies
the report branch condition, so the converged message is reported -- the
distinct did-not-converge report would require exceeding the cap, which the
loop never does. -/
theorem run_cap_exhaustion (tc : ThresholdCheck) (res : ℕ → ℚ) (sol : List ℚ)
    (hmax : 1 ≤ tc.maxThreshold)
    (hres : ∀ k, ¬ res k ≤ tc.minThreshold) :
    used_iterations tc res = tc.maxThreshold
    ∧ run_outcome tc res sol = (sol, Report.converged) := by
  have h := iterate_loop_cap tc res hres tc.maxThreshold 1 le_rfl hmax (by omega)
  refine ⟨h, ?_⟩
  simp [run_outcome, used_iterations] at h ⊢
  simp [h, run_report]

/-- C5 witness: the amended behavior at a concrete three-iteration cap with
a residual that never improves. -/
theorem run_cap_exhaustion_witness :
    used_iterations ⟨0, 3⟩ (fun _ => 1) = 3
    ∧ run_outcome ⟨0, 3⟩ (fun _ => 1) [5] = ([5], Report.converged) :=
  run_cap_exhaustion ⟨0, 3⟩ (fun _ => 1) [5] (by norm_num) (fun k => by norm_num)

/-- C9: when the external root finder reports non-convergence,
`implicit_solve` does not raise -- it warns and returns the best estimate
`sol.x` -- and the implicit SDC step carries on, writing the first component
of that estimate into the current solution at the node being corrected. -/
theorem implicit_solve_nonconvergence_recoverable
    (find_root : (List ℚ → List ℚ) → List ℚ → RootSol)
    (next_x : List ℚ) (func : List ℚ → List ℚ)
    (h : (find_root func next_x).success = false) :
    implicit_solve find_root next_x func = ((find_root func next_x).x, true)
    ∧ ∀ (rx : List ℚ) (N t n : ℕ) (F : ℚ → ℚ → ℚ) (Q : List ℚ → ℕ → ℚ)
        (nodes tp dn : ℕ → ℚ) (dI : ℚ) (cur prev : ℕ → ℚ),
        (sdcStepImplicit (fun _ _ => ⟨false, rx⟩) N t n F Q nodes tp dn dI cur prev).1
            (t * (N - 1) + n) = rx.getD 0 0
        ∧ (sdcStepImplicit (fun _ _ => ⟨false, rx⟩) N t n F Q nodes tp dn dI cur prev).2
            = true := by
  refine ⟨?_, fun rx N t n F Q nodes tp dn dI cur prev => ⟨?_, ?_⟩⟩
  · simp [implicit_solve, h]
  · simp [sdcStepImplicit, implicit_solve]
  · simp [sdcStepImplicit, implicit_solve]

/-- C9 witness: a root finder stuck at best estimate `[7]` without
convergence still produces a completed implicit step with value 7 written at
the corrected node. -/
theorem implicit_solve_nonconvergence_witness :
    implicit_solve (fun _ _ => ⟨false, [7]⟩) [0] (fun xs => xs) = ([7], true)
    ∧ (sdcStepImplicit (fun _ _ => ⟨false, [7]⟩) 3 0 1 (fun _ v => v)
        (fun _ _ => 0) (fun _ => 0) (fun _ => 0) (fun _ => 0) 1
        (fun _ => 0) (fun _ => 0)).1 (0 * (3 - 1) + 1) = 7 := by
  have h := implicit_solve_nonconvergence_recoverable
    (fun _ _ => ⟨false, [7]⟩) [0] (fun xs => xs) rfl
  refine ⟨h.1, ?_⟩
  have h2 := (h.2 [7] 3 0 1 (fun _ v => v) (fun _ _ => 0) (fun _ => 0) (fun _ => 0)
    (fun _ => 0) 1 (fun _ => 0) (fun _ => 0)).1
  simpa using h2

/-- `numpy.where` applied to the concatenated copy mask and two slices of
length `N` selects the first slice below position `n` and the second slice
from position `n` on. -/
theorem npWhere_mask_blend :
    ∀ (N : ℕ) (n : ℕ) (f g : ℕ → ℚ), n ≤ N →
      npWhere (List.replicate n true ++ List.replicate (N - n) false)
        ((List.range N).map f) ((List.range N).map g)
      = (List.range N).map (fun j => if j < n then f j else g j) := by
  intro N
  induction N with
  | zero =>
    intro n f g hn
    interval_cases n
    simp [npWhere]
  | succ N ih =>
    intro n f g hn
    rw [List.range_succ_eq_map]
    cases n with
    | zero =>
      have h0 := ih 0 (fun j => f (j + 1)) (fun j => g (j + 1)) (Nat.zero_le N)
      simp only [List.replicate, List.nil_append, Nat.sub_zero] at h0
      simp only [List.replicate, List.nil_append, Nat.sub_zero, List.map_cons, List.map_map,
        List.replicate_succ, npWhere, Bool.false_eq_true, if_false]
      have hc : (List.range N).map (f ∘ Nat.succ) = (List.range N).map (fun j => f (j + 1)) := rfl
      have hc2 : (List.range N).map (g ∘ Nat.succ) = (List.range N).map (fun j => g (j + 1)) := rfl
      rw [hc, hc2, h0]
      simp [Function.comp]
    | succ m =>
      have hm : m ≤ N := by omega
      have hsub : N + 1 - (m + 1) = N - m := by omega
      rw [List.replicate_succ, hsub]
      simp only [List.cons_append, List.map_cons, npWhere, if_pos rfl, List.map_map,
        List.append_eq]
      have h0 := ih m (fun j => f (j + 1)) (fun j => g (j + 1)) hm
      have hc : (List.range N).map (f ∘ Nat.succ) = (List.range N).map (fun j => f (j + 1)) := rfl
      have hc2 : (List.range N).map (g ∘ Nat.succ) = (List.range N).map (fun j => g (j + 1)) := rfl
      rw [hc, hc2, h0]
      simp only [Nat.zero_lt_succ, if_pos, List.map_map]
      congr 1
      apply List.map_congr_left
      intro j hj
      simp only [Function.comp_apply]
      by_cases hjm : j < m
      · simp [hjm, Nat.succ_lt_succ hjm]
      · have hns : ¬ (j + 1 < m + 1) := by omega
        simp [hjm, hns]

/-- Overwriting position `n` of a mapped range (`values[n] = x`) is mapping
with the function that yields `x` at `n`. -/
theorem set_range_map (h : ℕ → ℚ) (x : ℚ) (N n : ℕ) :
    ((List.range N).map h).set n x
      = (List.range N).map (fun j => if j = n then x else h j) := by
  apply List.ext_getElem
  · simp
  · intro j hj1 hj2
    simp only [List.length_map, List.length_range] at hj1
    simp only [List.getElem_set, List.getElem_map, List.getElem_range]
    by_cases hjn : n = j
    · simp [hjn]
    · simp [hjn, Ne.symm hjn]

/-- C1: in an explicit SDC step at time step `t`, node `n` with
`1 <= n < N`, the values assembled for the quadrature are the masked blend
(current iteration below local index `n`, previous iteration from `n` on)
and the value written to global index `i = t*(N-1)+n` is
`u_(i-1)^cur + dt_n*(F(t_(i-1), u_(i-1)^cur) - F(t_(i-1), u_(i-1)^prev))
+ dI * Q(blend, n)`, exactly as the specification words it. -/
theorem sdc_explicit_value (N t n : ℕ) (F : ℚ → ℚ → ℚ) (Q : List ℚ → ℕ → ℚ)
    (nodes tp dn : ℕ → ℚ) (dI : ℚ) (cur prev : ℕ → ℚ)
    (hn : 1 ≤ n) (hnN : n < N) :
    (sdcStepExplicit N t n F Q nodes tp dn dI cur prev).1 (t * (N - 1) + n)
      = correctedValueSpec N t n F Q nodes tp dn dI cur prev := by
  have e0 : t * (N - 1) + n - n = t * (N - 1) := by omega
  have e1 : (t + 1) * (N - 1) + 1 - (t * (N - 1) + n - n) = N := by
    have h1 : (t + 1) * (N - 1) = t * (N - 1) + (N - 1) := by ring
    rw [e0, h1]
    omega
  simp only [sdcStepExplicit, if_pos rfl]
  rw [e1, e0, npWhere_mask_blend N n _ _ (le_of_lt hnN)]
  rfl

/-- C1 witness: the masked explicit update evaluated at a three-node single
step with concrete problem data. -/
theorem sdc_explicit_value_witness :
    1 ≤ 1 ∧ 1 < 3
    ∧ (sdcStepExplicit 3 0 1 (fun s v => s + v) (fun vals m => vals.sum + m)
        (fun k => (k : ℚ)) (fun k => (k : ℚ)) (fun k => (k : ℚ)) 2
        (fun j => (j : ℚ)) (fun j => 2 * (j : ℚ) + 1)).1 (0 * (3 - 1) + 1)
      = correctedValueSpec 3 0 1 (fun s v => s + v) (fun vals m => vals.sum + m)
        (fun k => (k : ℚ)) (fun k => (k : ℚ)) (fun k => (k : ℚ)) 2
        (fun j => (j : ℚ)) (fun j => 2 * (j : ℚ) + 1) :=
  ⟨by norm_num, by norm_num,
    sdc_explicit_value 3 0 1 (fun s v => s + v) (fun vals m => vals.sum + m)
      (fun k => (k : ℚ)) (fun k => (k : ℚ)) (fun k => (k : ℚ)) 2
      (fun j => (j : ℚ)) (fun j => 2 * (j : ℚ) + 1) (by norm_num) (by norm_num)⟩

/-- C2: the residual stored at global index `i = t*(N-1)+n` by the explicit
SDC step is the collocation defect
`|u_(i0) + dI * (sum of the quadrature up to node m for m = 1..n) - u_i|`,
where the integrand re-evaluates `F` on values that take the freshly
corrected current-iteration solution at every local index up to and
including `n` and the previous iteration values beyond. -/
theorem sdc_explicit_residual (N t n : ℕ) (F : ℚ → ℚ → ℚ) (Q : List ℚ → ℕ → ℚ)
    (nodes tp dn : ℕ → ℚ) (dI : ℚ) (cur prev : ℕ → ℚ)
    (hn : 1 ≤ n) (hnN : n < N) :
    (sdcStepExplicit N t n F Q nodes tp dn dI cur prev).2
      = residualSpec N t n F Q nodes tp dn dI cur prev := by
  have e0 : t * (N - 1) + n - n = t * (N - 1) := by omega
  have e1 : (t + 1) * (N - 1) + 1 - (t * (N - 1) + n - n) = N := by
    have h1 : (t + 1) * (N - 1) = t * (N - 1) + (N - 1) := by ring
    rw [e0, h1]
    omega
  simp only [sdcStepExplicit, residualSpec, correctedValueSpec, blendedValuesSpec]
  rw [e1, e0, npWhere_mask_blend N n _ _ (le_of_lt hnN),
    npWhere_mask_blend N n _ _ (le_of_lt hnN),
    set_range_map _ _ N n]
  congr 1
  congr 1
  congr 1
  congr 1
  apply Finset.sum_congr rfl
  intro m hm
  congr 1
  congr 1
  apply List.map_congr_left
  intro j hj
  simp only [List.mem_range] at hj
  by_cases hje : j = n
  · subst hje
    simp [le_refl]
  · by_cases hjlt : j < n
    · have hne : ¬ (t * (N - 1) + j = t * (N - 1) + n) := by omega
      simp [hjlt, le_of_lt hjlt, hje, hne]
    · have h1 : ¬ (j ≤ n) := by omega
      simp [hje, hjlt, h1]

/-- C2 witness: the collocation-defect residual evaluated at the second
node of a three-node step with concrete problem data. -/
theorem sdc_explicit_residual_witness :
    1 ≤ 2 ∧ 2 < 3
    ∧ (sdcStepExplicit 3 1 2 (fun s v => s * v) (fun vals m => vals.sum * m)
        (fun k => (k : ℚ) + 1) (fun k => (k : ℚ) / 2) (fun k => (k : ℚ)) 3
        (fun j => (j : ℚ) - 1) (fun j => (j : ℚ))).2
      = residualSpec 3 1 2 (fun s v => s * v) (fun vals m => vals.sum * m)
        (fun k => (k : ℚ) + 1) (fun k => (k : ℚ) / 2) (fun k => (k : ℚ)) 3
        (fun j => (j : ℚ) - 1) (fun j => (j : ℚ)) :=
  ⟨by norm_num, by norm_num,
    sdc_explicit_residual 3 1 2 (fun s v => s * v) (fun vals m => vals.sum * m)
      (fun k => (k : ℚ) + 1) (fun k => (k : ℚ) / 2) (fun k => (k : ℚ)) 3
      (fun j => (j : ℚ) - 1) (fun j => (j : ℚ)) (by norm_num) (by norm_num)⟩

/-- An interior grid entry written by the init loop in affine closed form:
step offset plus canonical node scaled by the step width. -/
theorem gridTimePoint_eq (T N : ℕ) (a b : ℚ) (s : ℕ → ℚ) (i : ℕ) (h : i < T * (N - 1)) :
    gridTimePoint T N a b s i
      = a + ((i / (N - 1) : ℕ) : ℚ) * ((b - a) / T)
          + s (i % (N - 1)) * ((b - a) / T) := by
  have hne : i ≠ T * (N - 1) := Nat.ne_of_lt h
  simp only [gridTimePoint, hne, if_false, transformNode, stepPoint]
  push_cast
  ring

/-- The overwritten final grid entry is the end of the last step when the
canonical node set ends at 1. -/
theorem gridTimePoint_last (T N : ℕ) (a b : ℚ) (s : ℕ → ℚ) (hT : 1 ≤ T)
    (h1 : s (N - 1) = 1) :
    gridTimePoint T N a b s (T * (N - 1)) = a + (T : ℚ) * ((b - a) / T) := by
  simp only [gridTimePoint, eq_self_iff_true, if_true, transformNode, stepPoint, h1]
  have hc : ((T - 1 : ℕ) : ℚ) = (T : ℚ) - 1 := by
    have := Nat.cast_sub hT (R := ℚ)
    simpa using this
  rw [hc]
  ring

/-- C4: for `T >= 1` time steps and `N >= 2` nodes over an interval
`a < b`, with the spec-modelled canonical node set (strictly increasing on
`[0, N-1]` from 0 to 1), the grid built by `init` holds exactly
`T*(N-1)+1` points, its node time points are strictly increasing over the
whole interval, and the boundary entry `(k+1)*(N-1)` -- written by the loop
as the first node of step `k+1` -- coincides with the last node of step `k`
mapped onto the interval of step `k`. -/
theorem sdc_init_grid (T N : ℕ) (a b : ℚ) (u0 : ℚ) (s : ℕ → ℚ)
    (hT : 1 ≤ T) (hN : 2 ≤ N) (hab : a < b)
    (hmono : ∀ m k, m < k → k ≤ N - 1 → s m < s k)
    (h0 : s 0 = 0) (h1 : s (N - 1) = 1) :
    (initialSolution T N u0).length = T * (N - 1) + 1
    ∧ (∀ i j, i < j → j ≤ T * (N - 1) →
        gridTimePoint T N a b s i < gridTimePoint T N a b s j)
    ∧ (∀ k, k + 1 < T →
        gridTimePoint T N a b s ((k + 1) * (N - 1))
          = transformNode (stepPoint T a b k) (stepPoint T a b (k + 1)) (s (N - 1))) := by
  have hN1 : 0 < N - 1 := by omega
  have hw : 0 < (b - a) / (T : ℚ) := by
    apply div_pos (by linarith)
    exact_mod_cast Nat.pos_of_ne_zero (by omega)
  set w : ℚ := (b - a) / (T : ℚ) with hwdef
  have hs_nonneg : ∀ r, r ≤ N - 1 → 0 ≤ s r := by
    intro r hr
    rcases Nat.eq_zero_or_pos r with h | h
    · subst h; rw [h0]
    · rw [← h0]; exact (hmono 0 r h hr).le
  have hs_lt_one : ∀ r, r < N - 1 → s r < 1 := by
    intro r hr
    rw [← h1]
    exact hmono r (N - 1) hr le_rfl
  refine ⟨by simp [initialSolution, num_points], ?_, ?_⟩
  · intro i j hij hj
    have hi_lt : i < T * (N - 1) := by omega
    have hqi_lt : i / (N - 1) < T := (Nat.div_lt_iff_lt_mul hN1).mpr hi_lt
    have hri : i % (N - 1) < N - 1 := Nat.mod_lt _ hN1
    rcases Nat.lt_or_ge j (T * (N - 1)) with hj_lt | hj_ge
    · have hrj : j % (N - 1) < N - 1 := Nat.mod_lt _ hN1
      have hqle : i / (N - 1) ≤ j / (N - 1) := Nat.div_le_div_right hij.le
      rw [gridTimePoint_eq T N a b s i hi_lt, gridTimePoint_eq T N a b s j hj_lt]
      rcases eq_or_lt_of_le hqle with hq | hq
      · have ei := Nat.div_add_mod i (N - 1)
        have ej := Nat.div_add_mod j (N - 1)
        have hr_lt : i % (N - 1) < j % (N - 1) := by
          have hq2 : (N - 1) * (i / (N - 1)) = (N - 1) * (j / (N - 1)) := by rw [hq]
          omega
        have hs := hmono (i % (N - 1)) (j % (N - 1)) hr_lt (le_of_lt hrj)
        rw [hq]
        have := mul_lt_mul_of_pos_right hs hw
        linarith
      · have hcast : ((i / (N - 1) : ℕ) : ℚ) + 1 ≤ ((j / (N - 1) : ℕ) : ℚ) := by
          exact_mod_cast hq
        have hlt1 : s (i % (N - 1)) * w < 1 * w :=
          mul_lt_mul_of_pos_right (hs_lt_one _ hri) hw
        have hge0 : 0 ≤ s (j % (N - 1)) * w :=
          mul_nonneg (hs_nonneg _ (le_of_lt hrj)) hw.le
        nlinarith [mul_le_mul_of_nonneg_right hcast hw.le]
    · have hjeq : j = T * (N - 1) := by omega
      rw [hjeq, gridTimePoint_last T N a b s hT h1,
        gridTimePoint_eq T N a b s i hi_lt]
      have hcast : ((i / (N - 1) : ℕ) : ℚ) + 1 ≤ (T : ℚ) := by
        exact_mod_cast hqi_lt
      have hlt1 : s (i % (N - 1)) * w < 1 * w :=
        mul_lt_mul_of_pos_right (hs_lt_one _ hri) hw
      nlinarith [mul_le_mul_of_nonneg_right hcast hw.le]
  · intro k hk
    have hne : (k + 1) * (N - 1) ≠ T * (N - 1) := by
      have : (k + 1) * (N - 1) < T * (N - 1) :=
        (Nat.mul_lt_mul_right hN1).mpr (by omega)
      omega
    have hdiv : (k + 1) * (N - 1) / (N - 1) = k + 1 := Nat.mul_div_cancel _ hN1
    have hmod : (k + 1) * (N - 1) % (N - 1) = 0 := Nat.mul_mod_left _ _
    simp only [gridTimePoint, hne, if_false, hdiv, hmod, h0, h1, transformNode, stepPoint]
    push_cast
    ring

/-- C4 witness: the grid invariants at a concrete two-step three-node
configuration over `[0, 1]` with the canonical nodes 0, 1/2, 1. -/
theorem sdc_init_grid_witness :
    (0 : ℚ) < 1
    ∧ ((initialSolution 2 3 5).length = 2 * (3 - 1) + 1
      ∧ (∀ i j, i < j → j ≤ 2 * (3 - 1) →
          gridTimePoint 2 3 0 1 (fun n => (n : ℚ) / 2) i
            < gridTimePoint 2 3 0 1 (fun n => (n : ℚ) / 2) j)
      ∧ (∀ k, k + 1 < 2 →
          gridTimePoint 2 3 0 1 (fun n => (n : ℚ) / 2) ((k + 1) * (3 - 1))
            = transformNode (stepPoint 2 0 1 k) (stepPoint 2 0 1 (k + 1))
                (((3 - 1 : ℕ) : ℚ) / 2))) := by
  refine ⟨by norm_num, sdc_init_grid 2 3 0 1 5 (fun n => (n : ℚ) / 2)
    (by norm_num) (by norm_num) (by norm_num) (fun m k hmk hk => ?_)
    (by norm_num) (by norm_num)⟩
  have : (m : ℚ) < (k : ℚ) := by exact_mod_cast hmk
  linarith

end PyPinT
